import Mathlib

/-!
Verification development for the Monte Carlo option-pricing engine exercised by
the `python_examples` scripts.  The engine itself (`montecarlo_pricer`) is not
part of the visible sources, so its data model and operations are modelled from
the specification; the helper logic of `performance_analysis.py` is embedded
directly from the source.  Real numbers stand for the engine's floating-point
values, and the unspecified normal-variate transform and normal CDF are model
parameters.
-/

noncomputable section

/-- Modelled from the spec: `PricingConfig` (§3), the immutable per-call
configuration of the pricing engine.  `n_paths` is an integer so that the
non-positive case required by validation is representable. -/
structure PricingConfig where
  S0 : ℝ
  K : ℝ
  r : ℝ
  sigma : ℝ
  T : ℝ
  n_paths : ℤ
  option_type : String
  use_antithetic : Bool
  use_control_variate : Bool
  control_strike : ℝ
  control_option_type : String
  n_threads : ℕ

/-- Modelled from the spec: `PricingResult` (§3).  The control-variate
diagnostics are `Option`-valued so that "absent/null" is representable. -/
structure PricingResult where
  price : ℝ
  std_error : ℝ
  ci_lower : ℝ
  ci_upper : ℝ
  samples : ℕ
  control_variate_used : Bool
  control_beta : Option ℝ
  control_payoff_mc : Option ℝ
  control_payoff_analytical : Option ℝ
  variance_reduction_factor : Option ℝ

/-- Modelled from the spec: `GreeksResult` (§3). -/
structure GreeksResult where
  delta : ℝ
  gamma : ℝ
  vega : ℝ
  theta : ℝ
  rho : ℝ

/-- Modelled from the spec: the engine's environment.  `Φ` is the standard
normal CDF used by the Analytical Pricer (§4.3); `normal` is the Random Stream
Manager (§4.1), giving the `i`-th standard-normal draw of stream `stream` under
a base `seed` (the exact transform is left open by the spec, §9); `hw` is the
detected hardware parallelism used when `n_threads = 0`. -/
structure Model where
  Φ : ℝ → ℝ
  normal : ℕ → ℕ → ℕ → ℝ
  hw : ℕ

/-- Modelled from the spec: configuration validation (§7 `InvalidConfig`):
non-positive `S0/K/sigma/T`, non-positive `n_paths`, unrecognized
`option_type` or `control_option_type`, with a message identifying the
offending field. -/
def validateConfig (cfg : PricingConfig) : Except String Unit :=
  if cfg.S0 ≤ 0 then Except.error "S0 must be positive"
  else if cfg.K ≤ 0 then Except.error "K must be positive"
  else if cfg.sigma ≤ 0 then Except.error "sigma must be positive"
  else if cfg.T ≤ 0 then Except.error "T must be positive"
  else if cfg.n_paths ≤ 0 then Except.error "n_paths must be positive"
  else if cfg.option_type ≠ "call" ∧ cfg.option_type ≠ "put" then
    Except.error "unrecognized option_type"
  else if cfg.control_option_type ≠ "call" ∧ cfg.control_option_type ≠ "put" ∧
      cfg.control_option_type ≠ "auto" then
    Except.error "unrecognized control_option_type"
  else Except.ok ()

/-- The `InvalidConfig` condition of §7, as a predicate on configurations. -/
def invalidCfg (cfg : PricingConfig) : Prop :=
  cfg.S0 ≤ 0 ∨ cfg.K ≤ 0 ∨ cfg.sigma ≤ 0 ∨ cfg.T ≤ 0 ∨ cfg.n_paths ≤ 0 ∨
    (cfg.option_type ≠ "call" ∧ cfg.option_type ≠ "put") ∨
    (cfg.control_option_type ≠ "call" ∧ cfg.control_option_type ≠ "put" ∧
      cfg.control_option_type ≠ "auto")

/-- A valid configuration: the negation of the `InvalidConfig` condition. -/
def validCfg (cfg : PricingConfig) : Prop :=
  0 < cfg.S0 ∧ 0 < cfg.K ∧ 0 < cfg.sigma ∧ 0 < cfg.T ∧ 0 < cfg.n_paths ∧
    (cfg.option_type = "call" ∨ cfg.option_type = "put") ∧
    (cfg.control_option_type = "call" ∨ cfg.control_option_type = "put" ∨
      cfg.control_option_type = "auto")

/-- Whether an `Except`-valued call failed. -/
def isErr {α : Type} (e : Except String α) : Bool :=
  match e with
  | Except.error _ => true
  | Except.ok _ => false

/-- Modelled from the spec: resolution rule for the control strike (§4.4):
`control_strike == 0.0` is a sentinel meaning "use K". -/
def resolvedControlStrike (cfg : PricingConfig) : ℝ :=
  if cfg.control_strike = 0 then cfg.K else cfg.control_strike

/-- Modelled from the spec: resolution rule for the control option type (§4.4):
`auto` resolves to the target `option_type`. -/
def resolvedControlType (cfg : PricingConfig) : String :=
  if cfg.control_option_type = "auto" then cfg.option_type else cfg.control_option_type

/-- Modelled from the spec: closed-form Black-Scholes price (§4.3), using the
model's normal CDF. -/
def bsPrice (M : Model) (optType : String) (S0 K r sigma T : ℝ) : ℝ :=
  let d1 := (Real.log (S0 / K) + (r + sigma ^ 2 / 2) * T) / (sigma * Real.sqrt T)
  let d2 := d1 - sigma * Real.sqrt T
  if optType = "call" then S0 * M.Φ d1 - K * Real.exp (-(r * T)) * M.Φ d2
  else K * Real.exp (-(r * T)) * M.Φ (-d2) - S0 * M.Φ (-d1)

/-- Modelled from the spec: terminal price under geometric Brownian motion for
a draw `Z` (§4.2). -/
def terminalPrice (cfg : PricingConfig) (Z : ℝ) : ℝ :=
  cfg.S0 * Real.exp ((cfg.r - cfg.sigma ^ 2 / 2) * cfg.T + cfg.sigma * Real.sqrt cfg.T * Z)

/-- Modelled from the spec: vanilla payoff (§4.2): `max (S_T - K) 0` for calls
and `max (K - S_T) 0` for puts. -/
def vanillaPayoff (optType : String) (K S_T : ℝ) : ℝ :=
  if optType = "call" then max (S_T - K) 0 else max (K - S_T) 0

/-- Discounted payoff of the target option for one draw. -/
def discTargetPayoff (cfg : PricingConfig) (Z : ℝ) : ℝ :=
  Real.exp (-(cfg.r * cfg.T)) * vanillaPayoff cfg.option_type cfg.K (terminalPrice cfg Z)

/-- Discounted payoff of the (resolved) control option for the same draw, so
that the target and control share randomness (§4.2). -/
def discControlPayoff (cfg : PricingConfig) (Z : ℝ) : ℝ :=
  Real.exp (-(cfg.r * cfg.T)) *
    vanillaPayoff (resolvedControlType cfg) (resolvedControlStrike cfg) (terminalPrice cfg Z)

/-- Modelled from the spec: one combined target sample for a draw `Z` (§4.2).
With antithetic sampling the draw is paired with `-Z` and the two payoffs are
averaged into one combined sample. -/
def targetSample (cfg : PricingConfig) (Z : ℝ) : ℝ :=
  if cfg.use_antithetic then (discTargetPayoff cfg Z + discTargetPayoff cfg (-Z)) / 2
  else discTargetPayoff cfg Z

/-- One combined control sample for a draw `Z`, mirroring `targetSample`. -/
def controlSample (cfg : PricingConfig) (Z : ℝ) : ℝ :=
  if cfg.use_antithetic then (discControlPayoff cfg Z + discControlPayoff cfg (-Z)) / 2
  else discControlPayoff cfg Z

/-- Modelled from the spec: a worker's running sums (§4.5): sample count, sum
and sum of squares of the target channel, the same for the control channel,
and the cross-product sum. -/
structure Sums where
  n : ℕ
  st : ℝ
  stt : ℝ
  sc : ℝ
  scc : ℝ
  stc : ℝ

/-- The empty accumulator. -/
def zeroSums : Sums := ⟨0, 0, 0, 0, 0, 0⟩

/-- Fold one (target, control) sample pair into the running sums. -/
def addSample (s : Sums) (x y : ℝ) : Sums :=
  ⟨s.n + 1, s.st + x, s.stt + x ^ 2, s.sc + y, s.scc + y ^ 2, s.stc + x * y⟩

/-- Modelled from the spec: merging two partial accumulators at the join
barrier (§4.5): componentwise sums. -/
def mergeSums (a b : Sums) : Sums :=
  ⟨a.n + b.n, a.st + b.st, a.stt + b.stt, a.sc + b.sc, a.scc + b.scc, a.stc + b.stc⟩

/-- Modelled from the spec: a worker runs the kernel over its `count` paths
using its own substream, accumulating running sums (§4.5). -/
def workerSums (M : Model) (cfg : PricingConfig) (seed stream count : ℕ) : Sums :=
  (List.range count).foldl
    (fun s i =>
      addSample s (targetSample cfg (M.normal seed stream i))
        (controlSample cfg (M.normal seed stream i)))
    zeroSums

/-- Modelled from the spec: contiguous share of worker `i` when `total` paths
are split across `workers` threads, remainder paths going to the first few
workers (§4.5). -/
def share (total workers i : ℕ) : ℕ :=
  total / workers + if i < total % workers then 1 else 0

/-- Modelled from the spec: effective worker count (§4.5): `n_threads`, or the
hardware parallelism when `n_threads = 0`. -/
def effectiveThreads (M : Model) (cfg : PricingConfig) : ℕ :=
  if cfg.n_threads = 0 then max M.hw 1 else cfg.n_threads

/-- Sample mean of the target channel. -/
def sampleMean (s : Sums) : ℝ := s.st / (s.n : ℝ)

/-- Sample mean of the control channel. -/
def sampleMeanC (s : Sums) : ℝ := s.sc / (s.n : ℝ)

/-- Sample variance of the target channel, from the running sums. -/
def sampleVarT (s : Sums) : ℝ :=
  (s.stt - (s.n : ℝ) * sampleMean s ^ 2) / ((s.n : ℝ) - 1)

/-- Sample variance of the control channel, from the running sums. -/
def sampleVarC (s : Sums) : ℝ :=
  (s.scc - (s.n : ℝ) * sampleMeanC s ^ 2) / ((s.n : ℝ) - 1)

/-- Sample covariance of the target and control channels. -/
def sampleCov (s : Sums) : ℝ :=
  (s.stc - (s.n : ℝ) * sampleMean s * sampleMeanC s) / ((s.n : ℝ) - 1)

/-- Modelled from the spec: final aggregation of merged sums into a
`PricingResult` (§4.4, §4.5): mean, standard error `sqrt (variance / samples)`,
the 95% confidence interval `price ± 1.96·std_error`, and, when control
variates are on, `beta = Cov / Var` (0 when `Var` is degenerate), the corrected
price `mean(target) + beta·(analytical(control) − mean(control))`, the adjusted
variance `Var(target) − beta²·Var(control)`, and the variance-reduction
factor. -/
def resultOfSums (M : Model) (cfg : PricingConfig) (s : Sums) : PricingResult :=
  let p0 := sampleMean s
  let se0 := Real.sqrt (sampleVarT s / (s.n : ℝ))
  if cfg.use_control_variate then
    let varC := sampleVarC s
    let beta := if varC = 0 then 0 else sampleCov s / varC
    let ctrlA := bsPrice M (resolvedControlType cfg) cfg.S0 (resolvedControlStrike cfg)
      cfg.r cfg.sigma cfg.T
    let price := p0 + beta * (ctrlA - sampleMeanC s)
    let se := Real.sqrt ((sampleVarT s - beta ^ 2 * varC) / (s.n : ℝ))
    { price := price
      std_error := se
      ci_lower := price - 1.96 * se
      ci_upper := price + 1.96 * se
      samples := s.n
      control_variate_used := true
      control_beta := some beta
      control_payoff_mc := some (sampleMeanC s)
      control_payoff_analytical := some ctrlA
      variance_reduction_factor := some (if varC = 0 then 1 else se0 / se) }
  else
    { price := p0
      std_error := se0
      ci_lower := p0 - 1.96 * se0
      ci_upper := p0 + 1.96 * se0
      samples := s.n
      control_variate_used := false
      control_beta := none
      control_payoff_mc := none
      control_payoff_analytical := none
      variance_reduction_factor := none }

/-- The running sums of a single-threaded run: one worker (stream 0) runs all
`n_paths` paths (§4.5). -/
def mcSums (M : Model) (seed : ℕ) (cfg : PricingConfig) : Sums :=
  workerSums M cfg seed 0 cfg.n_paths.toNat

/-- Single-threaded pricing pipeline on a validated configuration. -/
def priceCore (M : Model) (seed : ℕ) (cfg : PricingConfig) : PricingResult :=
  resultOfSums M cfg (mcSums M seed cfg)

/-- Modelled from the spec: `price_mc` (§6): validation first, then the
single-threaded Monte Carlo estimate; on `InvalidConfig` the error alone is
returned. -/
def price_mc (M : Model) (seed : ℕ) (cfg : PricingConfig) : Except String PricingResult :=
  match validateConfig cfg with
  | Except.error e => Except.error e
  | Except.ok _ => Except.ok (priceCore M seed cfg)

/-- Partial sums of worker `i` in a `w`-worker parallel run. -/
def workerPart (M : Model) (cfg : PricingConfig) (seed w : ℕ) (i : ℕ) : Sums :=
  workerSums M cfg seed i (share cfg.n_paths.toNat w i)

/-- Merged sums of a parallel run whose workers are merged in the completion
order `order` (a permutation of the worker indices). -/
def parallelSumsOrdered (M : Model) (cfg : PricingConfig) (seed w : ℕ)
    (order : List ℕ) : Sums :=
  (order.map (workerPart M cfg seed w)).foldl mergeSums zeroSums

/-- Merged sums of a parallel run, canonical worker order. -/
def parallelSums (M : Model) (cfg : PricingConfig) (seed w : ℕ) : Sums :=
  parallelSumsOrdered M cfg seed w (List.range w)

/-- The merged sums of a parallel run with the effective thread count. -/
def parSums (M : Model) (seed : ℕ) (cfg : PricingConfig) : Sums :=
  parallelSums M cfg seed (effectiveThreads M cfg)

/-- Multi-threaded pricing pipeline on a validated configuration (§4.5). -/
def priceParCore (M : Model) (seed : ℕ) (cfg : PricingConfig) : PricingResult :=
  resultOfSums M cfg (parSums M seed cfg)

/-- Modelled from the spec: `price_mc_parallel` (§6): validation first, then
the multi-threaded Monte Carlo estimate; on `InvalidConfig` the error alone is
returned, before any parallel work. -/
def price_mc_parallel (M : Model) (seed : ℕ) (cfg : PricingConfig) :
    Except String PricingResult :=
  match validateConfig cfg with
  | Except.error e => Except.error e
  | Except.ok _ => Except.ok (priceParCore M seed cfg)

/-- A parallel run whose workers complete (and are merged) in an arbitrary
order: used to state scheduling-order independence (§5). -/
def price_mc_parallel_sched (M : Model) (seed : ℕ) (cfg : PricingConfig)
    (order : List ℕ) : Except String PricingResult :=
  match validateConfig cfg with
  | Except.error e => Except.error e
  | Except.ok _ =>
    Except.ok (resultOfSums M cfg (parallelSumsOrdered M cfg seed (effectiveThreads M cfg) order))

/-- Modelled from the spec: the Greeks Engine (§4.6): central finite
differences on the engine's own pricing pipeline, reusing the same seed for
every bumped evaluation (common random numbers). -/
def greeksCore (M : Model) (seed : ℕ) (cfg : PricingConfig) (useParallel : Bool) :
    GreeksResult :=
  let p : PricingConfig → ℝ := fun c =>
    (if useParallel then priceParCore M seed c else priceCore M seed c).price
  let hS := 0.01 * cfg.S0
  let hsig := 0.01 * cfg.sigma
  let hT := 0.01 * cfg.T
  let hr := 0.0001
  { delta := (p { cfg with S0 := cfg.S0 + hS } - p { cfg with S0 := cfg.S0 - hS }) / (2 * hS)
    gamma := (p { cfg with S0 := cfg.S0 + hS } - 2 * p cfg + p { cfg with S0 := cfg.S0 - hS }) /
      hS ^ 2
    vega := (p { cfg with sigma := cfg.sigma + hsig } -
      p { cfg with sigma := cfg.sigma - hsig }) / (2 * hsig)
    theta := -((p { cfg with T := cfg.T + hT } - p { cfg with T := cfg.T - hT }) / (2 * hT))
    rho := (p { cfg with r := cfg.r + hr } - p { cfg with r := cfg.r - hr }) / (2 * hr) }

/-- Modelled from the spec: `compute_greeks` (§6): validation first, then the
finite-difference Greeks. -/
def compute_greeks (M : Model) (seed : ℕ) (cfg : PricingConfig) (useParallel : Bool) :
    Except String GreeksResult :=
  match validateConfig cfg with
  | Except.error e => Except.error e
  | Except.ok _ => Except.ok (greeksCore M seed cfg useParallel)

/-- Modelled from the spec: `analytical_price` (§6): validation first, then
the closed-form Black-Scholes price. -/
def analytical_price (M : Model) (cfg : PricingConfig) : Except String ℝ :=
  match validateConfig cfg with
  | Except.error e => Except.error e
  | Except.ok _ => Except.ok (bsPrice M cfg.option_type cfg.S0 cfg.K cfg.r cfg.sigma cfg.T)

/-- Python's `int.bit_length`, embedded from its semantics: the number of bits
needed to represent `n`. -/
def bit_length (n : ℕ) : ℕ := if n = 0 then 0 else Nat.log2 n + 1

/-- Embedded from `performance_analysis.py`, `analyze_threading_scalability`
(lines 59-63): the thread counts benchmarked when `max_threads` is provided:
powers of two up to `max_threads`, then `max_threads` itself if missing, then
`sorted([1] + thread_counts)`. -/
def threadCounts (max_threads : ℕ) : List ℕ :=
  let pows := ((List.range (bit_length max_threads)).map (fun i => 2 ^ i)).filter
    (fun p => p ≤ max_threads)
  let pows2 := if max_threads ∈ pows then pows else pows ++ [max_threads]
  (1 :: pows2).mergeSort (fun a b => a ≤ b)

/-- The invariant of C1 on a pricing result: nonnegative standard error and a
symmetric 95% confidence interval containing the price. -/
def resultInvariant (res : PricingResult) : Prop :=
  0 ≤ res.std_error ∧
    res.ci_lower = res.price - 1.96 * res.std_error ∧
    res.ci_upper = res.price + 1.96 * res.std_error ∧
    res.ci_lower ≤ res.price ∧ res.price ≤ res.ci_upper

/-- A concrete model instance used to exercise the theorems. -/
def exampleModel : Model := ⟨fun _ => 0, fun _ _ _ => 0, 4⟩

/-- The example configuration of `example_usage.py` (with a small path budget
and an explicit thread count). -/
def exampleCfg : PricingConfig :=
  { S0 := 100, K := 100, r := 0.05, sigma := 0.2, T := 1, n_paths := 1000,
    option_type := "call", use_antithetic := true, use_control_variate := false,
    control_strike := 0, control_option_type := "auto", n_threads := 2 }

/-- The example configuration with control variates switched on. -/
def cvCfg : PricingConfig := { exampleCfg with use_control_variate := true }

lemma validateConfig_eq_ok_iff (cfg : PricingConfig) :
    validateConfig cfg = Except.ok () ↔ validCfg cfg := by
  unfold validateConfig validCfg
  split_ifs with h1 h2 h3 h4 h5 h6 h7 <;>
    (simp_all [not_le, not_or, not_and_or]; try tauto)

lemma validateConfig_isErr_iff (cfg : PricingConfig) :
    isErr (validateConfig cfg) = true ↔ invalidCfg cfg := by
  unfold validateConfig invalidCfg isErr
  split_ifs with h1 h2 h3 h4 h5 h6 h7 <;> (simp_all [not_le]; try tauto)

lemma validCfg_iff_not_invalid (cfg : PricingConfig) : validCfg cfg ↔ ¬ invalidCfg cfg := by
  unfold validCfg invalidCfg
  push_neg
  constructor
  · rintro ⟨h1, h2, h3, h4, h5, h6, h7⟩
    refine ⟨by linarith, by linarith, by linarith, by linarith, by omega, ?_, ?_⟩ <;> tauto
  · rintro ⟨h1, h2, h3, h4, h5, h6, h7⟩
    refine ⟨by linarith, by linarith, by linarith, by linarith, by omega, ?_, ?_⟩ <;> tauto

lemma price_mc_ok (M : Model) (seed : ℕ) (cfg : PricingConfig) (h : validCfg cfg) :
    price_mc M seed cfg = Except.ok (priceCore M seed cfg) := by
  unfold price_mc
  rw [(validateConfig_eq_ok_iff cfg).mpr h]

lemma price_mc_parallel_ok (M : Model) (seed : ℕ) (cfg : PricingConfig) (h : validCfg cfg) :
    price_mc_parallel M seed cfg = Except.ok (priceParCore M seed cfg) := by
  unfold price_mc_parallel
  rw [(validateConfig_eq_ok_iff cfg).mpr h]

lemma isErr_match_validate {α : Type} (cfg : PricingConfig) (x : Unit → α) :
    isErr (match validateConfig cfg with
      | Except.error e => Except.error e
      | Except.ok u => Except.ok (x u)) = isErr (validateConfig cfg) := by
  rcases h : validateConfig cfg with e | u <;> simp [isErr]

/-- C2: the four entry points fail with `InvalidConfig` exactly when some of
`S0, K, sigma, T` is non-positive, `n_paths` is non-positive, or
`option_type` / `control_option_type` is unrecognized; validation runs before
any simulation work and an error carries no partial result. -/
theorem invalid_config_fail_iff (M : Model) (seed : ℕ) (cfg : PricingConfig)
    (useParallel : Bool) :
    (isErr (analytical_price M cfg) = true ↔ invalidCfg cfg) ∧
    (isErr (price_mc M seed cfg) = true ↔ invalidCfg cfg) ∧
    (isErr (price_mc_parallel M seed cfg) = true ↔ invalidCfg cfg) ∧
    (isErr (compute_greeks M seed cfg useParallel) = true ↔ invalidCfg cfg) := by
  have ha : isErr (analytical_price M cfg) = isErr (validateConfig cfg) := by
    unfold analytical_price
    rcases h : validateConfig cfg with e | u <;> simp [isErr]
  have hb : isErr (price_mc M seed cfg) = isErr (validateConfig cfg) := by
    unfold price_mc
    rcases h : validateConfig cfg with e | u <;> simp [isErr]
  have hc : isErr (price_mc_parallel M seed cfg) = isErr (validateConfig cfg) := by
    unfold price_mc_parallel
    rcases h : validateConfig cfg with e | u <;> simp [isErr]
  have hd : isErr (compute_greeks M seed cfg useParallel) = isErr (validateConfig cfg) := by
    unfold compute_greeks
    rcases h : validateConfig cfg with e | u <;> simp [isErr]
  rw [ha, hb, hc, hd]
  exact ⟨validateConfig_isErr_iff cfg, validateConfig_isErr_iff cfg,
    validateConfig_isErr_iff cfg, validateConfig_isErr_iff cfg⟩

lemma resultInvariant_resultOfSums (M : Model) (cfg : PricingConfig) (s : Sums) :
    resultInvariant (resultOfSums M cfg s) := by
  unfold resultOfSums resultInvariant
  split_ifs with h <;>
    refine ⟨Real.sqrt_nonneg _, rfl, rfl, ?_, ?_⟩ <;>
      [skip; skip; skip; skip] <;>
    first
      | exact sub_le_self _ (by positivity)
      | exact le_add_of_nonneg_right (by positivity)

/-- C1: for every valid configuration, both `price_mc` and `price_mc_parallel`
return a result with `std_error ≥ 0`, `ci_lower = price - 1.96·std_error`,
`ci_upper = price + 1.96·std_error`, and `ci_lower ≤ price ≤ ci_upper`. -/
theorem ci_contains_price (M : Model) (seed : ℕ) (cfg : PricingConfig) (h : validCfg cfg) :
    price_mc M seed cfg = Except.ok (priceCore M seed cfg) ∧
    price_mc_parallel M seed cfg = Except.ok (priceParCore M seed cfg) ∧
    resultInvariant (priceCore M seed cfg) ∧
    resultInvariant (priceParCore M seed cfg) :=
  ⟨price_mc_ok M seed cfg h, price_mc_parallel_ok M seed cfg h,
    resultInvariant_resultOfSums M cfg _, resultInvariant_resultOfSums M cfg _⟩

lemma validCfg_exampleCfg : validCfg exampleCfg := by
  refine ⟨?_, ?_, ?_, ?_, ?_, ?_, ?_⟩ <;> norm_num [exampleCfg, validCfg]

/-- Witness for C1 at the example configuration. -/
theorem ci_contains_price_witness :
    validCfg exampleCfg ∧
    (price_mc exampleModel 42 exampleCfg =
        Except.ok (priceCore exampleModel 42 exampleCfg) ∧
      price_mc_parallel exampleModel 42 exampleCfg =
        Except.ok (priceParCore exampleModel 42 exampleCfg) ∧
      resultInvariant (priceCore exampleModel 42 exampleCfg) ∧
      resultInvariant (priceParCore exampleModel 42 exampleCfg)) :=
  ⟨validCfg_exampleCfg, ci_contains_price exampleModel 42 exampleCfg validCfg_exampleCfg⟩

lemma validCfg_cvCfg : validCfg cvCfg := by
  refine ⟨?_, ?_, ?_, ?_, ?_, ?_, ?_⟩ <;> norm_num [cvCfg, exampleCfg, validCfg]

lemma resultOfSums_no_cv (M : Model) (cfg : PricingConfig) (s : Sums)
    (h : cfg.use_control_variate = false) :
    (resultOfSums M cfg s).control_variate_used = false ∧
    (resultOfSums M cfg s).control_beta = none ∧
    (resultOfSums M cfg s).control_payoff_mc = none ∧
    (resultOfSums M cfg s).control_payoff_analytical = none ∧
    (resultOfSums M cfg s).variance_reduction_factor = none ∧
    (resultOfSums M cfg s).price = sampleMean s := by
  unfold resultOfSums
  rw [h]
  simp

lemma resultOfSums_cv (M : Model) (cfg : PricingConfig) (s : Sums)
    (h : cfg.use_control_variate = true) :
    (resultOfSums M cfg s).control_variate_used = true ∧
    (resultOfSums M cfg s).control_beta =
      some (if sampleVarC s = 0 then 0 else sampleCov s / sampleVarC s) ∧
    (resultOfSums M cfg s).control_payoff_mc = some (sampleMeanC s) ∧
    (resultOfSums M cfg s).control_payoff_analytical =
      some (bsPrice M (resolvedControlType cfg) cfg.S0 (resolvedControlStrike cfg)
        cfg.r cfg.sigma cfg.T) ∧
    (resultOfSums M cfg s).price =
      sampleMean s + (if sampleVarC s = 0 then 0 else sampleCov s / sampleVarC s) *
        (bsPrice M (resolvedControlType cfg) cfg.S0 (resolvedControlStrike cfg)
          cfg.r cfg.sigma cfg.T - sampleMeanC s) ∧
    (resultOfSums M cfg s).variance_reduction_factor =
      some (if sampleVarC s = 0 then 1
        else Real.sqrt (sampleVarT s / (s.n : ℝ)) /
          Real.sqrt ((sampleVarT s -
            (if sampleVarC s = 0 then 0 else sampleCov s / sampleVarC s) ^ 2 *
              sampleVarC s) / (s.n : ℝ))) := by
  unfold resultOfSums
  rw [h]
  simp

lemma mcSums_ucv (M : Model) (seed : ℕ) (cfg : PricingConfig) (b : Bool) :
    mcSums M seed { cfg with use_control_variate := b } = mcSums M seed cfg := rfl

lemma parSums_ucv (M : Model) (seed : ℕ) (cfg : PricingConfig) (b : Bool) :
    parSums M seed { cfg with use_control_variate := b } = parSums M seed cfg := rfl

/-- C9: with `use_control_variate = false` every control-* field of the result
is `none` and `control_variate_used` is `false`, for both entry points. -/
theorem no_cv_fields_absent (M : Model) (seed : ℕ) (cfg : PricingConfig)
    (hv : validCfg cfg) (hcv : cfg.use_control_variate = false) :
    price_mc M seed cfg = Except.ok (priceCore M seed cfg) ∧
    price_mc_parallel M seed cfg = Except.ok (priceParCore M seed cfg) ∧
    ((priceCore M seed cfg).control_variate_used = false ∧
      (priceCore M seed cfg).control_beta = none ∧
      (priceCore M seed cfg).control_payoff_mc = none ∧
      (priceCore M seed cfg).control_payoff_analytical = none ∧
      (priceCore M seed cfg).variance_reduction_factor = none) ∧
    ((priceParCore M seed cfg).control_variate_used = false ∧
      (priceParCore M seed cfg).control_beta = none ∧
      (priceParCore M seed cfg).control_payoff_mc = none ∧
      (priceParCore M seed cfg).control_payoff_analytical = none ∧
      (priceParCore M seed cfg).variance_reduction_factor = none) := by
  have h1 := resultOfSums_no_cv M cfg (mcSums M seed cfg) hcv
  have h2 := resultOfSums_no_cv M cfg (parSums M seed cfg) hcv
  exact ⟨price_mc_ok M seed cfg hv, price_mc_parallel_ok M seed cfg hv,
    ⟨h1.1, h1.2.1, h1.2.2.1, h1.2.2.2.1, h1.2.2.2.2.1⟩,
    ⟨h2.1, h2.2.1, h2.2.2.1, h2.2.2.2.1, h2.2.2.2.2.1⟩⟩

/-- Witness for C9 at the example configuration (control variates off). -/
theorem no_cv_fields_absent_witness :
    validCfg exampleCfg ∧ exampleCfg.use_control_variate = false ∧
    (price_mc exampleModel 42 exampleCfg =
        Except.ok (priceCore exampleModel 42 exampleCfg) ∧
      price_mc_parallel exampleModel 42 exampleCfg =
        Except.ok (priceParCore exampleModel 42 exampleCfg) ∧
      ((priceCore exampleModel 42 exampleCfg).control_variate_used = false ∧
        (priceCore exampleModel 42 exampleCfg).control_beta = none ∧
        (priceCore exampleModel 42 exampleCfg).control_payoff_mc = none ∧
        (priceCore exampleModel 42 exampleCfg).control_payoff_analytical = none ∧
        (priceCore exampleModel 42 exampleCfg).variance_reduction_factor = none) ∧
      ((priceParCore exampleModel 42 exampleCfg).control_variate_used = false ∧
        (priceParCore exampleModel 42 exampleCfg).control_beta = none ∧
        (priceParCore exampleModel 42 exampleCfg).control_payoff_mc = none ∧
        (priceParCore exampleModel 42 exampleCfg).control_payoff_analytical = none ∧
        (priceParCore exampleModel 42 exampleCfg).variance_reduction_factor = none)) :=
  ⟨validCfg_exampleCfg, rfl,
    no_cv_fields_absent exampleModel 42 exampleCfg validCfg_exampleCfg rfl⟩

/-- C6: control-parameter resolution consists of two independent rules on the
configuration: a zero `control_strike` resolves to `K`, and
`control_option_type = auto` resolves to the target `option_type`; each rule
applies regardless of the other sentinel. -/
theorem control_resolution (cfg : PricingConfig) :
    (cfg.control_strike = 0 → resolvedControlStrike cfg = cfg.K) ∧
    (cfg.control_option_type = "auto" → resolvedControlType cfg = cfg.option_type) := by
  constructor <;> intro h <;> simp [resolvedControlStrike, resolvedControlType, h]

/-- Witness for C6: with `K = 100`, `option_type = call`, `control_strike = 0`
and `control_option_type = auto` the control resolves to a `K = 100` call; and
each rule fires on its own: with strike 95 and type `auto` the type still
resolves to `call`, and with strike 0 and explicit type `put` the strike still
resolves to 100. -/
theorem control_resolution_witness :
    exampleCfg.control_strike = 0 ∧ exampleCfg.control_option_type = "auto" ∧
    resolvedControlStrike exampleCfg = 100 ∧ resolvedControlType exampleCfg = "call" ∧
    ({ exampleCfg with control_strike := 95 } : PricingConfig).control_option_type = "auto" ∧
    resolvedControlType { exampleCfg with control_strike := 95 } = "call" ∧
    ({ exampleCfg with control_option_type := "put" } : PricingConfig).control_strike = 0 ∧
    resolvedControlStrike { exampleCfg with control_option_type := "put" } = 100 := by
  refine ⟨rfl, rfl, ?_, ?_, rfl, ?_, rfl, ?_⟩
  · exact (control_resolution exampleCfg).1 rfl
  · exact (control_resolution exampleCfg).2 rfl
  · exact (control_resolution { exampleCfg with control_strike := 95 }).2 rfl
  · exact (control_resolution { exampleCfg with control_option_type := "put" }).1 rfl

/-- C4: the Path/Payoff Kernel computes the GBM terminal price
`S0·exp((r − σ²/2)T + σ√T·Z)`, the payoff `max (S_T − K) 0` for calls and
`max (K − S_T) 0` for puts, and with antithetic sampling the draw `Z` is
paired with `-Z` and the two payoffs averaged into one combined sample. -/
theorem kernel_path_payoff (cfg : PricingConfig) (Z : ℝ) (ha : cfg.use_antithetic = true) :
    terminalPrice cfg Z =
      cfg.S0 * Real.exp ((cfg.r - cfg.sigma ^ 2 / 2) * cfg.T +
        cfg.sigma * Real.sqrt cfg.T * Z) ∧
    vanillaPayoff "call" cfg.K (terminalPrice cfg Z) = max (terminalPrice cfg Z - cfg.K) 0 ∧
    vanillaPayoff "put" cfg.K (terminalPrice cfg Z) = max (cfg.K - terminalPrice cfg Z) 0 ∧
    targetSample cfg Z = (discTargetPayoff cfg Z + discTargetPayoff cfg (-Z)) / 2 := by
  refine ⟨rfl, ?_, ?_, ?_⟩
  · simp [vanillaPayoff]
  · simp [vanillaPayoff]
  · simp [targetSample, ha]

/-- Witness for C4 at the example configuration and draw `Z = 1`. -/
theorem kernel_path_payoff_witness :
    exampleCfg.use_antithetic = true ∧
    (terminalPrice exampleCfg 1 =
        exampleCfg.S0 * Real.exp ((exampleCfg.r - exampleCfg.sigma ^ 2 / 2) * exampleCfg.T +
          exampleCfg.sigma * Real.sqrt exampleCfg.T * 1) ∧
      vanillaPayoff "call" exampleCfg.K (terminalPrice exampleCfg 1) =
        max (terminalPrice exampleCfg 1 - exampleCfg.K) 0 ∧
      vanillaPayoff "put" exampleCfg.K (terminalPrice exampleCfg 1) =
        max (exampleCfg.K - terminalPrice exampleCfg 1) 0 ∧
      targetSample exampleCfg 1 =
        (discTargetPayoff exampleCfg 1 + discTargetPayoff exampleCfg (-1)) / 2) :=
  ⟨rfl, kernel_path_payoff exampleCfg 1 rfl⟩

/-- C3: with control variates enabled, the reported price equals the
uncorrected mean target payoff plus `beta · (analytical(control) −
mc(control))`, with `beta = Cov/Var` (0 on a degenerate control); this holds
for both the single-threaded and the parallel pipeline. -/
theorem cv_price_correction (M : Model) (seed : ℕ) (cfg : PricingConfig)
    (hcv : cfg.use_control_variate = true) :
    ((priceCore M seed cfg).control_beta =
        some (if sampleVarC (mcSums M seed cfg) = 0 then 0
          else sampleCov (mcSums M seed cfg) / sampleVarC (mcSums M seed cfg)) ∧
      (priceCore M seed cfg).price =
        (priceCore M seed { cfg with use_control_variate := false }).price +
          (priceCore M seed cfg).control_beta.getD 0 *
            ((priceCore M seed cfg).control_payoff_analytical.getD 0 -
              (priceCore M seed cfg).control_payoff_mc.getD 0)) ∧
    ((priceParCore M seed cfg).control_beta =
        some (if sampleVarC (parSums M seed cfg) = 0 then 0
          else sampleCov (parSums M seed cfg) / sampleVarC (parSums M seed cfg)) ∧
      (priceParCore M seed cfg).price =
        (priceParCore M seed { cfg with use_control_variate := false }).price +
          (priceParCore M seed cfg).control_beta.getD 0 *
            ((priceParCore M seed cfg).control_payoff_analytical.getD 0 -
              (priceParCore M seed cfg).control_payoff_mc.getD 0)) := by
  have h1 := resultOfSums_cv M cfg (mcSums M seed cfg) hcv
  have h2 := resultOfSums_cv M cfg (parSums M seed cfg) hcv
  have raw1 := (resultOfSums_no_cv M { cfg with use_control_variate := false }
    (mcSums M seed cfg) rfl).2.2.2.2.2
  have raw2 := (resultOfSums_no_cv M { cfg with use_control_variate := false }
    (parSums M seed cfg) rfl).2.2.2.2.2
  simp only [priceCore, priceParCore, mcSums_ucv, parSums_ucv]
  refine ⟨⟨h1.2.1, ?_⟩, ⟨h2.2.1, ?_⟩⟩
  · rw [h1.2.2.2.2.1, raw1, h1.2.1, h1.2.2.2.1, h1.2.2.1]
    simp
  · rw [h2.2.2.2.2.1, raw2, h2.2.1, h2.2.2.2.1, h2.2.2.1]
    simp

/-- Witness for C3 at the example configuration with control variates on. -/
theorem cv_price_correction_witness :
    cvCfg.use_control_variate = true ∧
    (((priceCore exampleModel 42 cvCfg).control_beta =
        some (if sampleVarC (mcSums exampleModel 42 cvCfg) = 0 then 0
          else sampleCov (mcSums exampleModel 42 cvCfg) /
            sampleVarC (mcSums exampleModel 42 cvCfg)) ∧
      (priceCore exampleModel 42 cvCfg).price =
        (priceCore exampleModel 42 { cvCfg with use_control_variate := false }).price +
          (priceCore exampleModel 42 cvCfg).control_beta.getD 0 *
            ((priceCore exampleModel 42 cvCfg).control_payoff_analytical.getD 0 -
              (priceCore exampleModel 42 cvCfg).control_payoff_mc.getD 0)) ∧
    ((priceParCore exampleModel 42 cvCfg).control_beta =
        some (if sampleVarC (parSums exampleModel 42 cvCfg) = 0 then 0
          else sampleCov (parSums exampleModel 42 cvCfg) /
            sampleVarC (parSums exampleModel 42 cvCfg)) ∧
      (priceParCore exampleModel 42 cvCfg).price =
        (priceParCore exampleModel 42 { cvCfg with use_control_variate := false }).price +
          (priceParCore exampleModel 42 cvCfg).control_beta.getD 0 *
            ((priceParCore exampleModel 42 cvCfg).control_payoff_analytical.getD 0 -
              (priceParCore exampleModel 42 cvCfg).control_payoff_mc.getD 0))) :=
  ⟨rfl, cv_price_correction exampleModel 42 cvCfg rfl⟩

/-- C7: with control variates enabled and a degenerate (zero-variance) control
the call still succeeds: beta is 0, the correction leaves the price at the raw
mean, `control_variate_used` is still reported `true`, and the
variance-reduction factor is 1. -/
theorem degenerate_control_ok (M : Model) (seed : ℕ) (cfg : PricingConfig) (s : Sums)
    (hv : validCfg cfg) (hcv : cfg.use_control_variate = true)
    (hvar : sampleVarC s = 0) :
    price_mc M seed cfg = Except.ok (priceCore M seed cfg) ∧
    price_mc_parallel M seed cfg = Except.ok (priceParCore M seed cfg) ∧
    (resultOfSums M cfg s).control_beta = some 0 ∧
    (resultOfSums M cfg s).price = sampleMean s ∧
    (resultOfSums M cfg s).control_variate_used = true ∧
    (resultOfSums M cfg s).variance_reduction_factor = some 1 := by
  have h := resultOfSums_cv M cfg s hcv
  refine ⟨price_mc_ok M seed cfg hv, price_mc_parallel_ok M seed cfg hv, ?_, ?_, h.1, ?_⟩
  · simpa [hvar] using h.2.1
  · have hp := h.2.2.2.2.1
    simpa [hvar] using hp
  · simpa [hvar] using h.2.2.2.2.2

/-- Witness for C7: a one-sample accumulator has degenerate control variance. -/
theorem degenerate_control_ok_witness :
    validCfg cvCfg ∧ cvCfg.use_control_variate = true ∧
    sampleVarC ⟨1, 0, 0, 0, 0, 0⟩ = 0 ∧
    (price_mc exampleModel 42 cvCfg = Except.ok (priceCore exampleModel 42 cvCfg) ∧
      price_mc_parallel exampleModel 42 cvCfg =
        Except.ok (priceParCore exampleModel 42 cvCfg) ∧
      (resultOfSums exampleModel cvCfg ⟨1, 0, 0, 0, 0, 0⟩).control_beta = some 0 ∧
      (resultOfSums exampleModel cvCfg ⟨1, 0, 0, 0, 0, 0⟩).price =
        sampleMean ⟨1, 0, 0, 0, 0, 0⟩ ∧
      (resultOfSums exampleModel cvCfg ⟨1, 0, 0, 0, 0, 0⟩).control_variate_used = true ∧
      (resultOfSums exampleModel cvCfg ⟨1, 0, 0, 0, 0, 0⟩).variance_reduction_factor =
        some 1) := by
  have hvar : sampleVarC ⟨1, 0, 0, 0, 0, 0⟩ = 0 := by
    simp [sampleVarC, sampleMeanC]
  exact ⟨validCfg_cvCfg, rfl, hvar,
    degenerate_control_ok exampleModel 42 cvCfg ⟨1, 0, 0, 0, 0, 0⟩ validCfg_cvCfg rfl hvar⟩

lemma foldl_addSample_n (f g : ℕ → ℝ) (l : List ℕ) :
    ∀ s : Sums, (l.foldl (fun s i => addSample s (f i) (g i)) s).n = s.n + l.length := by
  induction l with
  | nil => intro s; simp
  | cons a t ih =>
    intro s
    rw [List.foldl_cons, ih]
    simp only [addSample, List.length_cons]
    omega

lemma workerSums_n (M : Model) (cfg : PricingConfig) (seed stream count : ℕ) :
    (workerSums M cfg seed stream count).n = count := by
  unfold workerSums
  rw [foldl_addSample_n]
  simp [zeroSums]

lemma foldl_mergeSums_n (l : List Sums) :
    ∀ a : Sums, (l.foldl mergeSums a).n = a.n + (l.map Sums.n).sum := by
  induction l with
  | nil => intro a; simp
  | cons b t ih =>
    intro a
    simp only [List.foldl_cons, List.map_cons, List.sum_cons, ih, mergeSums]
    omega

lemma sum_ite_range (q m n : ℕ) :
    ((List.range n).map (fun i => q + if i < m then 1 else 0)).sum = n * q + min m n := by
  induction n with
  | zero => simp
  | succ k ih =>
    rw [List.range_succ, List.map_append, List.sum_append, ih]
    simp only [List.map_cons, List.map_nil, List.sum_cons, List.sum_nil, Nat.succ_mul]
    split_ifs with hk <;> omega

lemma sum_share (t w : ℕ) (hw : 0 < w) : ((List.range w).map (share t w)).sum = t := by
  have h := sum_ite_range (t / w) (t % w) w
  have hfun : share t w = fun i => t / w + if i < t % w then 1 else 0 := by
    funext i
    rfl
  rw [hfun, h, min_eq_left (Nat.le_of_lt (Nat.mod_lt t hw))]
  exact Nat.div_add_mod t w

lemma parallelSums_n (M : Model) (cfg : PricingConfig) (seed w : ℕ) (hw : 0 < w) :
    (parallelSums M cfg seed w).n = cfg.n_paths.toNat := by
  unfold parallelSums parallelSumsOrdered
  rw [foldl_mergeSums_n, List.map_map]
  have hcomp : (Sums.n ∘ workerPart M cfg seed w) = share cfg.n_paths.toNat w := by
    funext i
    simp [workerPart, workerSums_n]
  rw [hcomp, sum_share _ w hw]
  simp [zeroSums]

lemma effectiveThreads_pos (M : Model) (cfg : PricingConfig) :
    0 < effectiveThreads M cfg := by
  unfold effectiveThreads
  split_ifs with h
  · exact Nat.lt_of_lt_of_le Nat.zero_lt_one (le_max_right M.hw 1)
  · exact Nat.pos_of_ne_zero h

/-- C8: for every valid configuration the `samples` field equals `n_paths`,
whether antithetic pairing is on or off, and identically for the
single-threaded and the multi-threaded entry point. -/
theorem samples_eq_n_paths (M : Model) (seed : ℕ) (cfg : PricingConfig)
    (hv : validCfg cfg) :
    price_mc M seed cfg = Except.ok (priceCore M seed cfg) ∧
    price_mc_parallel M seed cfg = Except.ok (priceParCore M seed cfg) ∧
    ((priceCore M seed cfg).samples : ℤ) = cfg.n_paths ∧
    ((priceParCore M seed cfg).samples : ℤ) = cfg.n_paths := by
  have hpos : 0 < cfg.n_paths := hv.2.2.2.2.1
  have hsamp : ∀ s : Sums, (resultOfSums M cfg s).samples = s.n := by
    intro s
    unfold resultOfSums
    split_ifs <;> rfl
  have h1 : (priceCore M seed cfg).samples = cfg.n_paths.toNat := by
    show (resultOfSums M cfg (mcSums M seed cfg)).samples = _
    rw [hsamp]
    exact workerSums_n M cfg seed 0 cfg.n_paths.toNat
  have h2 : (priceParCore M seed cfg).samples = cfg.n_paths.toNat := by
    show (resultOfSums M cfg (parSums M seed cfg)).samples = _
    rw [hsamp]
    exact parallelSums_n M cfg seed _ (effectiveThreads_pos M cfg)
  refine ⟨price_mc_ok M seed cfg hv, price_mc_parallel_ok M seed cfg hv, ?_, ?_⟩
  · rw [h1]
    exact Int.toNat_of_nonneg hpos.le
  · rw [h2]
    exact Int.toNat_of_nonneg hpos.le

/-- Witness for C8 at the example configuration. -/
theorem samples_eq_n_paths_witness :
    validCfg exampleCfg ∧
    (price_mc exampleModel 42 exampleCfg =
        Except.ok (priceCore exampleModel 42 exampleCfg) ∧
      price_mc_parallel exampleModel 42 exampleCfg =
        Except.ok (priceParCore exampleModel 42 exampleCfg) ∧
      ((priceCore exampleModel 42 exampleCfg).samples : ℤ) = exampleCfg.n_paths ∧
      ((priceParCore exampleModel 42 exampleCfg).samples : ℤ) = exampleCfg.n_paths) :=
  ⟨validCfg_exampleCfg, samples_eq_n_paths exampleModel 42 exampleCfg validCfg_exampleCfg⟩

lemma mergeSums_right_comm (z x y : Sums) :
    mergeSums (mergeSums z x) y = mergeSums (mergeSums z y) x := by
  simp only [mergeSums, Sums.mk.injEq]
  refine ⟨by omega, by ring, by ring, by ring, by ring, by ring⟩

lemma parallelSumsOrdered_perm (M : Model) (cfg : PricingConfig) (seed w : ℕ)
    (order : List ℕ) (hp : order.Perm (List.range w)) :
    parallelSumsOrdered M cfg seed w order = parallelSums M cfg seed w := by
  unfold parallelSums parallelSumsOrdered
  exact List.Perm.foldl_eq' (hp.map _)
    (fun x _ y _ z => mergeSums_right_comm z x y) zeroSums

/-- C5: for a fixed seed, configuration and thread count the engine is
deterministic: a parallel run whose workers complete in any order produces a
result identical to the canonical run, so any two runs of the same call
coincide. -/
theorem deterministic_for_fixed_seed (M : Model) (seed : ℕ) (cfg : PricingConfig)
    (order : List ℕ) (hp : order.Perm (List.range (effectiveThreads M cfg))) :
    price_mc_parallel_sched M seed cfg order = price_mc_parallel M seed cfg := by
  have hsum := parallelSumsOrdered_perm M cfg seed (effectiveThreads M cfg) order hp
  unfold price_mc_parallel_sched price_mc_parallel priceParCore parSums
  simp only [hsum]

/-- Witness for C5: with two workers, merging in the order `[1, 0]` yields the
same result as the canonical order. -/
theorem deterministic_for_fixed_seed_witness :
    [1, 0].Perm (List.range (effectiveThreads exampleModel exampleCfg)) ∧
    price_mc_parallel_sched exampleModel 42 exampleCfg [1, 0] =
      price_mc_parallel exampleModel 42 exampleCfg :=
  ⟨by decide, deterministic_for_fixed_seed exampleModel 42 exampleCfg [1, 0] (by decide)⟩

lemma pairwise_mergeSort_le (l : List ℕ) :
    List.Pairwise (· ≤ ·) (l.mergeSort (fun a b => a ≤ b)) := by
  have h := @List.sorted_mergeSort ℕ (fun a b : ℕ => a ≤ b)
    (fun a b c hab hbc => by
      simp only [decide_eq_true_eq] at *
      omega)
    (fun a b => by simpa using Nat.le_total a b) l
  exact h.imp (fun hab => by simpa using hab)

lemma threadCounts_sorted (mt : ℕ) : List.Pairwise (· ≤ ·) (threadCounts mt) := by
  simp only [threadCounts]
  exact pairwise_mergeSort_le _

lemma one_mem_threadCounts (mt : ℕ) : 1 ∈ threadCounts mt := by
  simp only [threadCounts, List.mem_mergeSort]
  exact List.mem_cons_self 1 _

lemma one_le_mem_threadCounts (mt x : ℕ) (h : 0 < mt) (hx : x ∈ threadCounts mt) :
    1 ≤ x := by
  simp only [threadCounts, List.mem_mergeSort] at hx
  rcases List.mem_cons.mp hx with rfl | hx
  · exact le_refl 1
  · split_ifs at hx with hmem
    · obtain ⟨⟨i, -, rfl⟩, -⟩ := by
        simpa [List.mem_filter, List.mem_map] using hx
      exact Nat.one_le_two_pow
    · rcases List.mem_append.mp hx with hx | hx
      · obtain ⟨⟨i, -, rfl⟩, -⟩ := by
          simpa [List.mem_filter, List.mem_map] using hx
        exact Nat.one_le_two_pow
      · simp only [List.mem_singleton] at hx
        omega

lemma mt_mem_threadCounts (mt : ℕ) : mt ∈ threadCounts mt := by
  simp only [threadCounts, List.mem_mergeSort]
  rw [List.mem_cons]
  split_ifs with hmem
  · exact Or.inr hmem
  · exact Or.inr (List.mem_append_right _ (List.mem_singleton_self mt))

lemma head_of_min (L : List ℕ) (hs : List.Pairwise (· ≤ ·) L) (hm : 1 ∈ L)
    (hall : ∀ x ∈ L, 1 ≤ x) : L.head? = some 1 := by
  cases L with
  | nil => simp at hm
  | cons a l =>
    have ha : 1 ≤ a := hall a (List.mem_cons_self a l)
    rcases List.mem_cons.mp hm with rfl | hm
    · rfl
    · have hb : a ≤ 1 := (List.pairwise_cons.mp hs).1 1 hm
      have : a = 1 := le_antisymm hb ha
      simp [this]

/-- C10: in `analyze_threading_scalability`, for every positive `max_threads`
the computed `thread_counts` list is sorted in non-decreasing order, its first
element is 1, and `max_threads` is an element of the list. -/
theorem threadCounts_spec (mt : ℕ) (h : 0 < mt) :
    (threadCounts mt).head? = some 1 ∧
    List.Pairwise (· ≤ ·) (threadCounts mt) ∧
    mt ∈ threadCounts mt :=
  ⟨head_of_min _ (threadCounts_sorted mt) (one_mem_threadCounts mt)
      (fun x hx => one_le_mem_threadCounts mt x h hx),
    threadCounts_sorted mt, mt_mem_threadCounts mt⟩

/-- Witness for C10 at `max_threads = 5`. -/
theorem threadCounts_spec_witness :
    0 < 5 ∧
    ((threadCounts 5).head? = some 1 ∧
      List.Pairwise (· ≤ ·) (threadCounts 5) ∧
      5 ∈ threadCounts 5) :=
  ⟨by decide, threadCounts_spec 5 (by decide)⟩

end
